import Mathlib

/-!
# Shallow embedding of the visekai OCR job orchestration subsystem

This file embeds, in Lean, the job/result data model and the operations of the
asynchronous OCR job subsystem of the visekai repository:

* `backend/internal/repository/job_repo.go` — `JobRepository`
* the result repository (`ResultRepository`)
* the document repository (`DocumentRepository`, only `GetByID` and `SoftDelete`
  are relevant here)
* the job service (`JobService`: `SubmitJob`, `GetJob`, `ListJobs`, `CancelJob`,
  `DeleteJob`, `GetJobResult`, `processJob`, `GetPendingJobs`)
* the HTTP job handlers (`JobHandler`: error-to-response mapping)

Modelling conventions:

* Postgres rows become Lean structures; a table is a `List` of rows. Each SQL
  statement is atomic, exactly as in Postgres with a single-statement
  transaction.
* UUIDs are modelled as `Nat` identifiers; `uuid.New()` freshness is modelled
  by an explicit fresh-identifier argument (allocated from a monotone counter
  in the transition system below).
* `time.Now()` is modelled by an explicit `now : Nat` argument (abstract ticks).
* Fallible Go functions returning `error` become `Except String` values, with
  the error strings carried verbatim from the Go source.
* `float64` and JSONB payload fields (`confidence_score`, `json_data`,
  `metadata`) are not examined by any operation modelled here; they are
  omitted from the row structures.
-/

namespace Visekai

/-- Job status enumeration (`models.JobStatus` in the Go source). -/
inductive JobStatus where
  | pending
  | processing
  | completed
  | failed
  | cancelled
deriving DecidableEq, Repr

/-- String rendering used when a status is interpolated into an error
message (`fmt.Errorf("cannot cancel job with status: %s", job.Status)`). -/
def JobStatus.toName : JobStatus → String
  | .pending => "pending"
  | .processing => "processing"
  | .completed => "completed"
  | .failed => "failed"
  | .cancelled => "cancelled"

/-- OCR processing mode (`models.OCRMode`). -/
inductive OCRMode where
  | document
  | handwritten
  | general
  | figure
deriving DecidableEq, Repr

/-- OCR resolution mode (`models.ResolutionMode`). -/
inductive ResolutionMode where
  | tiny
  | small
  | base
  | large
  | gundam
deriving DecidableEq, Repr

/-- A row of the `ocr_jobs` table (`models.OCRJob`). -/
structure OCRJob where
  id : Nat
  documentId : Nat
  userId : Nat
  status : JobStatus
  ocrMode : OCRMode
  resolutionMode : ResolutionMode
  priority : Int
  retryCount : Nat
  maxRetries : Nat
  progressPercentage : Nat
  createdAt : Nat
  startedAt : Option Nat
  completedAt : Option Nat
  errorMessage : Option String
deriving DecidableEq, Repr

/-- A row of the `ocr_results` table (`models.OCRResult`); the float-valued
confidence score and the JSONB structured data are opaque to every operation
modelled here and are omitted. -/
structure OCRResult where
  id : Nat
  jobId : Nat
  documentId : Nat
  rawText : String
  markdownText : String
  processingTimeMs : Nat
  numPages : Nat
  createdAt : Nat
deriving DecidableEq, Repr

/-- A row of the `documents` table, restricted to the fields the job subsystem
reads (`models.Document`): owner, storage path, and the soft-delete marker
(`deleted_at`). -/
structure Document where
  id : Nat
  userId : Nat
  filePath : String
  deletedAt : Option Nat
deriving DecidableEq, Repr

/-- The response payload of the external OCR engine
(`ocr.Client.ProcessDocument` success value). -/
structure OCRResponse where
  text : String
  markdown : String
  processingTime : Nat
  numPages : Nat
deriving DecidableEq, Repr

/-- Outcome of one engine call, supplied as an oracle to the dispatch logic:
the engine either returns a payload or an error message. -/
inductive EngineOutcome where
  | success (resp : OCRResponse)
  | failure (msg : String)
deriving DecidableEq, Repr

namespace JobRepository

/-- `SELECT ... FROM ocr_jobs WHERE id = $1` — the row fetched by
`JobRepository.GetByID`, before the not-found translation. -/
def lookup (db : List OCRJob) (id : Nat) : Option OCRJob :=
  db.find? (fun j => j.id == id)

/-- `JobRepository.GetByID` (job_repo.go lines 62–98): returns the row or the
error `"job not found"` when no row matches. -/
def GetByID (db : List OCRJob) (id : Nat) : Except String OCRJob :=
  match lookup db id with
  | some j => .ok j
  | none => .error "job not found"

/-- The row transformation of an `UPDATE ocr_jobs ... WHERE id = $n`
statement: `f` applied to every matching row, other rows untouched. -/
def applyRow (db : List OCRJob) (id : Nat) (f : OCRJob → OCRJob) : List OCRJob :=
  db.map fun j => if j.id == id then f j else j

/-- An `UPDATE ocr_jobs ... WHERE id = $n` statement: applies `f` to every
matching row; reports `"job not found"` when `RowsAffected() == 0`. -/
def updateRow (db : List OCRJob) (id : Nat) (f : OCRJob → OCRJob) :
    Except String (List OCRJob) :=
  if db.any (fun j => j.id == id) then
    .ok (applyRow db id f)
  else
    .error "job not found"

/-- `JobRepository.UpdateStatus` (job_repo.go lines 159–211). The SQL issued
depends only on the target status and on whether an error message is given:

* `processing`: set `status` and `started_at = now` (unconditionally);
* `completed`/`failed`/`cancelled` with an error message: set `status`,
  `completed_at = now`, `error_message`, and `progress_percentage`
  (100 for completed, 0 otherwise);
* `completed`/`failed`/`cancelled` without an error message: set `status`,
  `completed_at = now`, and `progress_percentage = 100`;
* any other status (only `pending` occurs): set `status` alone. -/
def statusRowFn (status : JobStatus) (errorMessage : Option String) (now : Nat) :
    OCRJob → OCRJob :=
  match status with
  | .processing => fun j =>
      { j with status := status, startedAt := some now }
  | .completed | .failed | .cancelled =>
      match errorMessage with
      | some msg => fun j =>
          { j with status := status, completedAt := some now,
                   errorMessage := some msg,
                   progressPercentage := if status = .completed then 100 else 0 }
      | none => fun j =>
          { j with status := status, completedAt := some now,
                   progressPercentage := 100 }
  | _ => fun j => { j with status := status }

/-- The `UPDATE` statement of `JobRepository.UpdateStatus`, applying the
per-status row change selected by the switch above. -/
def UpdateStatus (db : List OCRJob) (jobID : Nat) (status : JobStatus)
    (errorMessage : Option String) (now : Nat) : Except String (List OCRJob) :=
  updateRow db jobID (statusRowFn status errorMessage now)

/-- `JobRepository.IncrementRetryCount` (job_repo.go lines 230–243):
`UPDATE ocr_jobs SET retry_count = retry_count + 1 WHERE id = $1`. -/
def IncrementRetryCount (db : List OCRJob) (jobID : Nat) :
    Except String (List OCRJob) :=
  updateRow db jobID fun j => { j with retryCount := j.retryCount + 1 }

/-- The comparator realised by `ORDER BY priority DESC, created_at ASC`. -/
def pendingOrder (a b : OCRJob) : Prop :=
  b.priority < a.priority ∨ (a.priority = b.priority ∧ a.createdAt ≤ b.createdAt)

instance : DecidableRel pendingOrder := fun a b => by
  unfold pendingOrder; infer_instance

instance : IsTotal OCRJob pendingOrder where
  total a b := by
    unfold pendingOrder
    rcases lt_trichotomy a.priority b.priority with h | h | h
    · exact .inr (.inl h)
    · rcases Nat.le_total a.createdAt b.createdAt with h' | h'
      · exact .inl (.inr ⟨h, h'⟩)
      · exact .inr (.inr ⟨h.symm, h'⟩)
    · exact .inl (.inl h)

instance : IsTrans OCRJob pendingOrder where
  trans a b c hab hbc := by
    unfold pendingOrder at *
    rcases hab with h1 | ⟨h1, h1'⟩ <;> rcases hbc with h2 | ⟨h2, h2'⟩
    · exact .inl (h2.trans h1)
    · exact .inl (h2 ▸ h1)
    · exact .inl (h1 ▸ h2)
    · exact .inr ⟨h1.trans h2, h1'.trans h2'⟩

/-- `JobRepository.GetPendingJobs` (job_repo.go lines 246–290):
`SELECT ... WHERE status = 'pending' ORDER BY priority DESC, created_at ASC
LIMIT $2`. The sort is modelled by a stable insertion sort over the ORDER BY
comparator. -/
def GetPendingJobs (db : List OCRJob) (limit : Nat) : List OCRJob :=
  (List.insertionSort pendingOrder (db.filter fun j => j.status == .pending)).take limit

/-- `JobRepository.Delete` (job_repo.go lines 293–306):
`DELETE FROM ocr_jobs WHERE id = $1`. -/
def Delete (db : List OCRJob) (jobID : Nat) : Except String (List OCRJob) :=
  if db.any (fun j => j.id == jobID) then
    .ok (db.filter fun j => j.id != jobID)
  else
    .error "job not found"

/-- `JobRepository.GetByUserID` (job_repo.go lines 101–156): counts the user's
jobs, then returns one page ordered by `created_at DESC`. -/
def GetByUserID (db : List OCRJob) (userID : Nat) (page perPage : Nat) :
    List OCRJob × Nat :=
  let mine := db.filter fun j => j.userId == userID
  let sorted := List.insertionSort (fun a b => b.createdAt ≤ a.createdAt) mine
  ((sorted.drop ((page - 1) * perPage)).take perPage, mine.length)

end JobRepository

namespace ResultRepository

/-- `ResultRepository.Create`: `INSERT INTO ocr_results ...`; the repository
assigns a fresh id and the creation time before inserting. -/
def Create (db : List OCRResult) (r : OCRResult) (freshId now : Nat) :
    List OCRResult :=
  db ++ [{ r with id := freshId, createdAt := now }]

/-- `ResultRepository.GetByJobID`: `SELECT ... WHERE job_id = $1`, or the
error `"result not found"`. -/
def GetByJobID (db : List OCRResult) (jobID : Nat) : Except String OCRResult :=
  match db.find? (fun r => r.jobId == jobID) with
  | some r => .ok r
  | none => .error "result not found"

end ResultRepository

namespace DocumentRepository

/-- `DocumentRepository.GetByID`:
`SELECT ... FROM documents WHERE id = $1 AND deleted_at IS NULL`, or the error
`"document not found"`. -/
def GetByID (db : List Document) (id : Nat) : Except String Document :=
  match db.find? (fun d => d.id == id && d.deletedAt == none) with
  | some d => .ok d
  | none => .error "document not found"

/-- `DocumentRepository.SoftDelete`:
`UPDATE documents SET deleted_at = $1 WHERE id = $2 AND deleted_at IS NULL`. -/
def SoftDelete (db : List Document) (id now : Nat) : List Document :=
  db.map fun d =>
    if d.id == id && d.deletedAt == none then { d with deletedAt := some now } else d

end DocumentRepository


/-- The three stores the job subsystem mutates, together forming the durable
state (`ocr_jobs`, `ocr_results`, `documents`). -/
structure Stores where
  jobs : List OCRJob
  results : List OCRResult
  documents : List Document
deriving DecidableEq, Repr

/-- `models.JobSubmissionRequest` (the metadata map is opaque and omitted). -/
structure JobSubmissionRequest where
  documentId : Nat
  ocrMode : OCRMode
  resolutionMode : ResolutionMode
  priority : Int
deriving DecidableEq, Repr

/-- `models.Pagination` as filled in by `JobService.ListJobs`. -/
structure Pagination where
  page : Nat
  perPage : Nat
  total : Nat
  totalPages : Nat
  hasNext : Bool
  hasPrev : Bool
deriving DecidableEq, Repr

namespace JobService

/-- Applies a `JobRepository.UpdateStatus` call whose returned error the Go
caller discards (the `_ = s.jobRepo.UpdateStatus(...)` call sites in
`processJob`): on error the store is left unchanged. -/
def tryUpdateStatus (db : List OCRJob) (jobID : Nat) (status : JobStatus)
    (errorMessage : Option String) (now : Nat) : List OCRJob :=
  match JobRepository.UpdateStatus db jobID status errorMessage now with
  | .ok db' => db'
  | .error _ => db

/-- `JobRepository.IncrementRetryCount` with the error discarded, as at its
call site in `processJob`. -/
def tryIncrementRetryCount (db : List OCRJob) (jobID : Nat) : List OCRJob :=
  match JobRepository.IncrementRetryCount db jobID with
  | .ok db' => db'
  | .error _ => db

/-- The job row built by `JobService.SubmitJob` and completed by
`JobRepository.Create` (which assigns the fresh id, the pending status, the
creation time and zero progress). -/
def submittedJob (req : JobSubmissionRequest) (userID freshId now : Nat) : OCRJob :=
  { id := freshId
    documentId := req.documentId
    userId := userID
    status := .pending
    ocrMode := req.ocrMode
    resolutionMode := req.resolutionMode
    priority := req.priority
    retryCount := 0
    maxRetries := 3
    progressPercentage := 0
    createdAt := now
    startedAt := none
    completedAt := none
    errorMessage := none }

/-- `JobService.SubmitJob`: verifies the document exists (and is not
soft-deleted) and belongs to the caller, then inserts a pending job with
`retry_count = 0` and `max_retries = 3`. The asynchronous `go s.processJob`
launch is represented as a spawn token in the transition system below. -/
def SubmitJob (s : Stores) (req : JobSubmissionRequest) (userID : Nat)
    (freshId now : Nat) : Stores × Except String OCRJob :=
  match DocumentRepository.GetByID s.documents req.documentId with
  | .error e => (s, .error ("document not found: " ++ e))
  | .ok document =>
    if document.userId ≠ userID then
      (s, .error "unauthorized: document does not belong to user")
    else
      let job := submittedJob req userID freshId now
      ({ s with jobs := s.jobs ++ [job] }, .ok job)

/-- `JobService.GetJob`: fetch, then ownership check. -/
def GetJob (s : Stores) (jobID userID : Nat) : Except String OCRJob :=
  match JobRepository.GetByID s.jobs jobID with
  | .error e => .error e
  | .ok job =>
    if job.userId ≠ userID then .error "unauthorized: job does not belong to user"
    else .ok job

/-- `JobService.ListJobs`: clamps `page` to at least 1 and `per_page` into
`[1, 100]` (default 20), then pages the user's jobs and fills in the
pagination metadata. The Go `int` arithmetic on the clamped values involves
only nonnegative quantities, so it coincides with the `Nat` arithmetic used
here. -/
def ListJobs (s : Stores) (userID : Nat) (page perPage : Int) :
    List OCRJob × Pagination :=
  let pageC : Nat := if page < 1 then 1 else page.toNat
  let perPageC : Nat := if perPage < 1 || perPage > 100 then 20 else perPage.toNat
  let r := JobRepository.GetByUserID s.jobs userID pageC perPageC
  let total := r.2
  let totalPages := (total + perPageC - 1) / perPageC
  (r.1,
   { page := pageC
     perPage := perPageC
     total := total
     totalPages := totalPages
     hasNext := decide (pageC < totalPages)
     hasPrev := decide (pageC > 1) })

/-- `JobService.CancelJob`: fetch, ownership check, reject terminal states,
then `UpdateStatus(jobID, cancelled, nil)`. -/
def CancelJob (s : Stores) (jobID userID now : Nat) :
    Stores × Except String Unit :=
  match JobRepository.GetByID s.jobs jobID with
  | .error e => (s, .error e)
  | .ok job =>
    if job.userId ≠ userID then
      (s, .error "unauthorized: job does not belong to user")
    else if job.status = .completed ∨ job.status = .failed ∨ job.status = .cancelled then
      (s, .error ("cannot cancel job with status: " ++ job.status.toName))
    else
      match JobRepository.UpdateStatus s.jobs jobID .cancelled none now with
      | .error e => (s, .error ("failed to cancel job: " ++ e))
      | .ok jobs' => ({ s with jobs := jobs' }, .ok ())

/-- `JobService.DeleteJob`: fetch, ownership check, reject active states, then
delete the row. The owning results are removed with it, per the
`ocr_results.job_id REFERENCES ocr_jobs(id) ON DELETE CASCADE` constraint in
`database/migrations/001_init_schema.sql`. -/
def DeleteJob (s : Stores) (jobID userID : Nat) :
    Stores × Except String Unit :=
  match JobRepository.GetByID s.jobs jobID with
  | .error e => (s, .error e)
  | .ok job =>
    if job.userId ≠ userID then
      (s, .error "unauthorized: job does not belong to user")
    else if job.status = .pending ∨ job.status = .processing then
      (s, .error "cannot delete active job, cancel it first")
    else
      match JobRepository.Delete s.jobs jobID with
      | .error e => (s, .error ("failed to delete job: " ++ e))
      | .ok jobs' =>
        ({ s with jobs := jobs',
                  results := s.results.filter fun r => r.jobId != jobID },
         .ok ())

/-- `JobService.GetJobResult`: job fetch, ownership check, then result fetch
by job id (the job's own status is not consulted). -/
def GetJobResult (s : Stores) (jobID userID : Nat) : Except String OCRResult :=
  match JobRepository.GetByID s.jobs jobID with
  | .error e => .error e
  | .ok job =>
    if job.userId ≠ userID then .error "unauthorized: job does not belong to user"
    else ResultRepository.GetByJobID s.results jobID

/-- `JobService.GetPendingJobs`: delegates to the repository. -/
def GetPendingJobs (s : Stores) (limit : Nat) : List OCRJob :=
  JobRepository.GetPendingJobs s.jobs limit

/-!
## The dispatch path (`JobService.processJob`)

`processJob` runs on its own goroutine. Its only suspension of interest are
the shared-store accesses; the embedding splits it at two boundaries:

* after the initial `GetByID` fetch (the snapshot read, line 203);
* across the engine call `ocrClient.ProcessDocument` (line 233), the
  long-running network suspension during which other operations interleave.

Everything between two boundaries is applied as one block of consecutive
store operations. All decisions after the snapshot read are taken on the
snapshot, never on a re-read — exactly as in the Go source, which reads the
job once and never re-fetches it.
-/

/-- The claim block of `processJob` (lines 209–229): skip unless the snapshot
said pending, blindly write `processing`, then fetch the document (failing the
job when the document is gone). Returns the document on success; `none` means
the goroutine returned without reaching the engine call. -/
def processJobClaim (s : Stores) (snapshot : OCRJob) (now : Nat) :
    Stores × Option Document :=
  if snapshot.status ≠ .pending then (s, none)
  else
    match JobRepository.UpdateStatus s.jobs snapshot.id .processing none now with
    | .error _ => (s, none)
    | .ok jobs' =>
      match DocumentRepository.GetByID s.documents snapshot.documentId with
      | .error e =>
        ({ s with jobs := tryUpdateStatus jobs' snapshot.id .failed
                    (some ("Failed to get document: " ++ e)) now }, none)
      | .ok doc => ({ s with jobs := jobs' }, some doc)

/-- The `ocr_results` insert performed on the engine-success path of
`processJob` (lines 257–268): the result row is built from the snapshot and
the engine response. -/
def processJobSaveResult (results : List OCRResult) (snapshot : OCRJob)
    (resp : OCRResponse) (freshId now : Nat) : List OCRResult :=
  ResultRepository.Create results
    { id := 0
      jobId := snapshot.id
      documentId := snapshot.documentId
      rawText := resp.text
      markdownText := resp.markdown
      processingTimeMs := resp.processingTime
      numPages := resp.numPages
      createdAt := 0 } freshId now

/-- The block of `processJob` after the engine call returns (lines 234–284).

On failure: write `failed` with the engine's message; then, if the snapshot's
`retry_count` is below its `max_retries`, increment the retry count, write
`pending` back, and schedule a re-dispatch after the fixed 10-second backoff
(the returned flag; the delay itself is `retryBackoffSeconds`).

On success: insert the result row, then write `completed`. `writeErr = some e`
is the oracle for a failing result insert, which the code converts into a
`failed` status without retry. No branch re-reads the job's current status. -/
def processJobFinish (s : Stores) (snapshot : OCRJob) (outcome : EngineOutcome)
    (writeErr : Option String) (freshResultId now : Nat) : Stores × Bool :=
  match outcome with
  | .failure msg =>
    let jobs1 := tryUpdateStatus s.jobs snapshot.id .failed
      (some ("OCR processing failed: " ++ msg)) now
    if snapshot.retryCount < snapshot.maxRetries then
      let jobs2 := tryIncrementRetryCount jobs1 snapshot.id
      let jobs3 := tryUpdateStatus jobs2 snapshot.id .pending none now
      ({ s with jobs := jobs3 }, true)
    else
      ({ s with jobs := jobs1 }, false)
  | .success resp =>
    match writeErr with
    | some e =>
      ({ s with jobs := tryUpdateStatus s.jobs snapshot.id .failed
                  (some ("Failed to save result: " ++ e)) now }, false)
    | none =>
      ({ s with
          results := processJobSaveResult s.results snapshot resp freshResultId now,
          jobs := tryUpdateStatus s.jobs snapshot.id .completed none now }, false)

/-- The fixed backoff before a scheduled re-dispatch:
`time.Sleep(10 * time.Second)` in `processJob`. -/
def retryBackoffSeconds : Nat := 10

/-- One whole `processJob` invocation run without interference from other
goroutines: snapshot read, claim block, engine call, finish block. The
returned flag records whether a re-dispatch was scheduled. -/
def processJobAttempt (s : Stores) (jobID : Nat) (outcome : EngineOutcome)
    (writeErr : Option String) (freshResultId now : Nat) : Stores × Bool :=
  match JobRepository.GetByID s.jobs jobID with
  | .error _ => (s, false)
  | .ok snapshot =>
    match processJobClaim s snapshot now with
    | (s', none) => (s', false)
    | (s', some _) => processJobFinish s' snapshot outcome writeErr freshResultId now

end JobService

/-- The `(status, code, message)` triple of an error or success JSON envelope
written by a handler (`models.NewErrorResponse` / `NewSuccessResponse`; the
payload itself is not modelled). -/
structure HttpResponse where
  status : Nat
  code : String
  message : String
deriving DecidableEq, Repr

namespace JobHandler

/-- `JobHandler.GetJob` (response mapping): every service error becomes the
fixed `404` / `RES_003` / `"Job not found"` response. -/
def GetJob (s : Stores) (jobID userID : Nat) : HttpResponse :=
  match JobService.GetJob s jobID userID with
  | .ok _ => { status := 200, code := "", message := "Job retrieved successfully" }
  | .error _ => { status := 404, code := "RES_003", message := "Job not found" }

/-- `JobHandler.GetJobResult` (response mapping): every service error becomes
the fixed `404` / `RES_004` / `"Result not found"` response. -/
def GetJobResult (s : Stores) (jobID userID : Nat) : HttpResponse :=
  match JobService.GetJobResult s jobID userID with
  | .ok _ => { status := 200, code := "", message := "Result retrieved successfully" }
  | .error _ => { status := 404, code := "RES_004", message := "Result not found" }

/-- `JobHandler.CancelJob` (response mapping): a service error is passed
through verbatim as the message of a `400` / `JOB_002` response. -/
def CancelJob (s : Stores) (jobID userID now : Nat) : HttpResponse :=
  match (JobService.CancelJob s jobID userID now).2 with
  | .ok _ => { status := 200, code := "", message := "Job cancelled successfully" }
  | .error e => { status := 400, code := "JOB_002", message := e }

/-- `JobHandler.DeleteJob` (response mapping): a service error is passed
through verbatim as the message of a `400` / `JOB_003` response. -/
def DeleteJob (s : Stores) (jobID userID : Nat) : HttpResponse :=
  match (JobService.DeleteJob s jobID userID).2 with
  | .ok _ => { status := 200, code := "", message := "Job deleted successfully" }
  | .error e => { status := 400, code := "JOB_003", message := e }

end JobHandler

/-!
## Interleaving semantics

Each `processJob` invocation is a goroutine racing with API calls against the
shared store. `SysState` carries, besides the stores, the queued `go
s.processJob(jobID)` launches not yet started (`spawns`: one per `SubmitJob`
and one per scheduled retry) and the started invocations (`threads`),
remembered with the snapshot they read. A step is one block of consecutive
store accesses of one goroutine or one synchronous API call; steps of
different goroutines interleave arbitrarily, which covers the cancellation
and deletion races. Identifiers are allocated from the monotone counter
`nextId`, reflecting that UUIDs never repeat.
-/

/-- A started `processJob` goroutine: either it has read its snapshot and not
yet claimed the job, or it is suspended inside the engine call. -/
inductive DispatchThread where
  | fetched (snapshot : OCRJob)
  | engine (snapshot : OCRJob) (doc : Document)
deriving DecidableEq, Repr

/-- The job snapshot the goroutine read at its start (`processJob` line 203);
all its later decisions consult this snapshot. -/
def DispatchThread.snap : DispatchThread → OCRJob
  | .fetched s => s
  | .engine s _ => s

/-- Global state of the interleaving semantics. -/
structure SysState where
  stores : Stores
  spawns : List Nat
  threads : List DispatchThread
  nextId : Nat
deriving DecidableEq, Repr

namespace SysState

/-- `JobService.SubmitJob` as a system step: on success the created job is
queued for dispatch (`go s.processJob(job.ID)`). -/
def submitStep (s : SysState) (req : JobSubmissionRequest) (userID now : Nat) :
    SysState :=
  match JobService.SubmitJob s.stores req userID s.nextId now with
  | (st, .ok job) =>
    { s with stores := st, spawns := s.spawns ++ [job.id], nextId := s.nextId + 1 }
  | (_, .error _) => s

/-- A queued `processJob(jobID)` starts: it performs its initial `GetByID`.
If the job row is gone the goroutine returns at once; otherwise it holds the
snapshot it read. -/
def readStep (s : SysState) (jobID : Nat) : SysState :=
  match JobRepository.lookup s.stores.jobs jobID with
  | some j =>
    { s with spawns := s.spawns.erase jobID,
             threads := s.threads ++ [.fetched j] }
  | none => { s with spawns := s.spawns.erase jobID }

/-- The goroutine at index `i` runs its claim block (`processJobClaim`); it
either returns early (dropping the thread) or suspends in the engine call.
Out-of-range indices and threads in the wrong phase stutter. -/
def claimStep (s : SysState) (i now : Nat) : SysState :=
  match s.threads[i]? with
  | some (.fetched snapshot) =>
    let r := JobService.processJobClaim s.stores snapshot now
    match r.2 with
    | none => { s with stores := r.1, threads := s.threads.eraseIdx i }
    | some doc =>
      { s with stores := r.1, threads := s.threads.set i (.engine snapshot doc) }
  | _ => s

/-- The engine call of the goroutine at index `i` returns with `outcome`; the
goroutine runs its finish block (`processJobFinish`) and exits, queueing a
re-dispatch when the retry branch was taken. -/
def finishStep (s : SysState) (i : Nat) (outcome : EngineOutcome)
    (writeErr : Option String) (now : Nat) : SysState :=
  match s.threads[i]? with
  | some (.engine snapshot _) =>
    let r := JobService.processJobFinish s.stores snapshot outcome writeErr s.nextId now
    { stores := r.1,
      spawns := if r.2 then s.spawns ++ [snapshot.id] else s.spawns,
      threads := s.threads.eraseIdx i,
      nextId := s.nextId + 1 }
  | _ => s

/-- `JobService.CancelJob` as a system step (the caller's response is not part
of the shared state). -/
def cancelStep (s : SysState) (jobID userID now : Nat) : SysState :=
  { s with stores := (JobService.CancelJob s.stores jobID userID now).1 }

/-- `JobService.DeleteJob` as a system step. -/
def deleteStep (s : SysState) (jobID userID : Nat) : SysState :=
  { s with stores := (JobService.DeleteJob s.stores jobID userID).1 }

/-- `DocumentRepository.SoftDelete` as a system step (the document tier can
soft-delete a document while jobs reference it). -/
def softDeleteDocStep (s : SysState) (docID now : Nat) : SysState :=
  { s with stores :=
      { s.stores with
        documents := DocumentRepository.SoftDelete s.stores.documents docID now } }

end SysState

/-- One interleaved step of the system: a synchronous API call, or one block
of one dispatch goroutine. -/
inductive Step : SysState → SysState → Prop where
  | submit {s : SysState} (req : JobSubmissionRequest) (userID now : Nat) :
      Step s (s.submitStep req userID now)
  | dispatchRead {s : SysState} (jobID : Nat) (h : jobID ∈ s.spawns) :
      Step s (s.readStep jobID)
  | dispatchClaim {s : SysState} (i now : Nat) :
      Step s (s.claimStep i now)
  | dispatchFinish {s : SysState} (i : Nat) (outcome : EngineOutcome)
      (writeErr : Option String) (now : Nat) :
      Step s (s.finishStep i outcome writeErr now)
  | cancel {s : SysState} (jobID userID now : Nat) :
      Step s (s.cancelStep jobID userID now)
  | deleteJob {s : SysState} (jobID userID : Nat) :
      Step s (s.deleteStep jobID userID)
  | softDeleteDocument {s : SysState} (docID now : Nat) :
      Step s (s.softDeleteDocStep docID now)

/-- The system starts with no jobs, no results, no running goroutines, and an
arbitrary document table (uploads belong to the excluded tier). -/
def initState (docs : List Document) : SysState :=
  { stores := { jobs := [], results := [], documents := docs },
    spawns := [], threads := [], nextId := 0 }

/-- States reachable by interleaved execution from an initial state. -/
inductive Reachable : SysState → Prop where
  | init (docs : List Document) : Reachable (initState docs)
  | step {s s' : SysState} : Reachable s → Step s s' → Reachable s'

/-!
## Concrete fixtures

Small concrete stores used to evaluate the operations at specific inputs.
-/

/-- Fixture: a stored (not soft-deleted) document owned by user 7. -/
def exDocument : Document :=
  { id := 10, userId := 7, filePath := "a.pdf", deletedAt := none }

/-- Fixture: a freshly submitted pending job of user 7 for `exDocument`. -/
def exJob : OCRJob :=
  { id := 1, documentId := 10, userId := 7, status := .pending,
    ocrMode := .document, resolutionMode := .base, priority := 0,
    retryCount := 0, maxRetries := 3, progressPercentage := 0,
    createdAt := 0, startedAt := none, completedAt := none, errorMessage := none }

/-- Fixture: stores holding `exJob` and `exDocument`, no results. -/
def exStores : Stores :=
  { jobs := [exJob], results := [], documents := [exDocument] }

/-- Fixture: an engine success payload. -/
def exResponse : OCRResponse :=
  { text := "text", markdown := "md", processingTime := 5, numPages := 1 }

/-- Fixture for the ListPending ordering example: job A, priority 5,
created at t=1. -/
def exJobA : OCRJob :=
  { exJob with id := 1, priority := 5, createdAt := 1 }

/-- Fixture: job B, priority 9, created at t=2. -/
def exJobB : OCRJob :=
  { exJob with id := 2, priority := 9, createdAt := 2 }

/-- Fixture: job C, priority 5, created at t=0. -/
def exJobC : OCRJob :=
  { exJob with id := 3, priority := 5, createdAt := 0 }

/-- Fixture: the submission request for `exDocument`. -/
def exSubmitReq : JobSubmissionRequest :=
  { documentId := 10, ocrMode := .document, resolutionMode := .base, priority := 0 }

/-- Fixture: stores after the dispatch claim block ran for `exJob` at time 1;
the goroutine is now suspended inside the engine call. -/
def exClaimed : Stores := (JobService.processJobClaim exStores exJob 1).1

/-- Fixture: `exClaimed` after the owner cancelled job 1 at time 2 while the
dispatch goroutine is suspended in the engine call. -/
def exCancelled : Stores := (JobService.CancelJob exClaimed 1 7 2).1

/-- Fixture: `exCancelled` after the suspended dispatch came back with an
engine success and ran its finish block at time 3. -/
def exFinished : Stores :=
  (JobService.processJobFinish exCancelled exJob (.success exResponse) none 100 3).1

/-- Fixture: `exCancelled` at the instant the finish block has inserted the
result row but not yet issued the completed update — the store state between
the two statements of the success path. -/
def exMidWrite : Stores :=
  { exCancelled with
    results := JobService.processJobSaveResult exCancelled.results exJob exResponse 100 3 }

/-- Fixture: stores after one whole failed dispatch attempt on `exJob` at
time 1 (engine error "boom"; a retry was scheduled). -/
def exRetried : Stores :=
  (JobService.processJobAttempt exStores 1 (.failure "boom") none 100 1).1

/-- Fixture: `exRetried` after the re-dispatch at time 20 succeeded. -/
def exSecondDispatch : Stores :=
  (JobService.processJobAttempt exRetried 1 (.success exResponse) none 101 20).1

/-- Fixture: `exJob` as it looks after a processing transition at time 9. -/
def exProcessedJob : OCRJob :=
  { exJob with status := .processing, startedAt := some 9 }

/-- Fixture: the reachable system state after submit, dispatch read, claim and
a failed engine call (one full failed attempt of job 0). -/
def exTraceState : SysState :=
  ((((initState [exDocument]).submitStep exSubmitReq 7 0).readStep 0).claimStep
    0 1).finishStep 0 (.failure "boom") none 2

/-- Fixture: the job row stored in `exTraceState`. -/
def exTraceJob : OCRJob :=
  { id := 0, documentId := 10, userId := 7, status := .pending,
    ocrMode := .document, resolutionMode := .base, priority := 0,
    retryCount := 1, maxRetries := 3, progressPercentage := 0,
    createdAt := 0, startedAt := some 1, completedAt := some 2,
    errorMessage := some "OCR processing failed: boom" }

/-!
## The inductive invariant for the retry bound

`SysInv` strengthens the claimed bound `retry_count ≤ max_retries` with the
bookkeeping facts that make it inductive: identifiers are below the
allocation counter (so fresh ids are really fresh), at most one queued or
running goroutine exists per job id (the shape the spawn discipline of the
source guarantees: one launch per `SubmitJob`, one per taken retry branch),
and a running goroutine's snapshot agrees with the live row on the retry
fields, since nothing else changes them while it runs. -/
structure SysInv (s : SysState) : Prop where
  retryBound : ∀ j ∈ s.stores.jobs, j.retryCount ≤ j.maxRetries
  jobIdLt : ∀ j ∈ s.stores.jobs, j.id < s.nextId
  jobIdsNodup : (s.stores.jobs.map fun j => j.id).Nodup
  spawnLt : ∀ a ∈ s.spawns, a < s.nextId
  threadLt : ∀ t ∈ s.threads, t.snap.id < s.nextId
  tokensNodup : (s.spawns ++ s.threads.map fun t => t.snap.id).Nodup
  snapAcc : ∀ t ∈ s.threads, ∀ j ∈ s.stores.jobs, j.id = t.snap.id →
    j.retryCount = t.snap.retryCount ∧ j.maxRetries = t.snap.maxRetries

/-!
# Theorems

General lemmas about the repository operations, followed by the inductive
invariant proof and the per-claim results.
-/

namespace JobRepository

theorem lookup_mem {db : List OCRJob} {id : Nat} {j : OCRJob}
    (h : lookup db id = some j) : j ∈ db :=
  List.mem_of_find?_eq_some h

theorem lookup_id {db : List OCRJob} {id : Nat} {j : OCRJob}
    (h : lookup db id = some j) : j.id = id := by
  simpa using List.find?_some h

theorem applyRow_map_id {db : List OCRJob} {id : Nat} {f : OCRJob → OCRJob}
    (hf : ∀ j, (f j).id = j.id) :
    (applyRow db id f).map (fun j => j.id) = db.map (fun j => j.id) := by
  unfold applyRow
  rw [List.map_map]
  refine List.map_congr_left ?_
  intro j _
  by_cases h : j.id = id <;> simp [h, hf]

theorem mem_applyRow {db : List OCRJob} {id : Nat} {f : OCRJob → OCRJob}
    {j' : OCRJob} (h : j' ∈ applyRow db id f) :
    ∃ j ∈ db, j' = if j.id == id then f j else j := by
  unfold applyRow at h
  rcases List.mem_map.1 h with ⟨j, hj, rfl⟩
  exact ⟨j, hj, rfl⟩

theorem statusRowFn_id (st : JobStatus) (em : Option String) (now : Nat)
    (j : OCRJob) : (statusRowFn st em now j).id = j.id := by
  unfold statusRowFn
  cases st <;> cases em <;> rfl

theorem statusRowFn_retryCount (st : JobStatus) (em : Option String) (now : Nat)
    (j : OCRJob) : (statusRowFn st em now j).retryCount = j.retryCount := by
  unfold statusRowFn
  cases st <;> cases em <;> rfl

theorem statusRowFn_maxRetries (st : JobStatus) (em : Option String) (now : Nat)
    (j : OCRJob) : (statusRowFn st em now j).maxRetries = j.maxRetries := by
  unfold statusRowFn
  cases st <;> cases em <;> rfl

theorem updateRow_ok {db : List OCRJob} {id : Nat} {f : OCRJob → OCRJob}
    {db' : List OCRJob} (h : updateRow db id f = .ok db') :
    db' = applyRow db id f := by
  unfold updateRow at h
  split at h
  · cases h; rfl
  · cases h

theorem UpdateStatus_ok {db : List OCRJob} {id : Nat} {st : JobStatus}
    {em : Option String} {now : Nat} {db' : List OCRJob}
    (h : UpdateStatus db id st em now = .ok db') :
    db' = applyRow db id (statusRowFn st em now) :=
  updateRow_ok h

theorem Delete_ok {db : List OCRJob} {id : Nat} {db' : List OCRJob}
    (h : Delete db id = .ok db') : db' = db.filter (fun j => j.id != id) := by
  unfold Delete at h
  split at h
  · cases h; rfl
  · cases h

end JobRepository

namespace JobService

theorem tryUpdateStatus_eq (db : List OCRJob) (id : Nat) (st : JobStatus)
    (em : Option String) (now : Nat) :
    tryUpdateStatus db id st em now =
      if db.any (fun j => j.id == id) then
        JobRepository.applyRow db id (JobRepository.statusRowFn st em now)
      else db := by
  by_cases hc : db.any (fun j => j.id == id) <;>
    simp [tryUpdateStatus, JobRepository.UpdateStatus, JobRepository.updateRow, hc]

theorem tryIncrement_eq (db : List OCRJob) (id : Nat) :
    tryIncrementRetryCount db id =
      if db.any (fun j => j.id == id) then
        JobRepository.applyRow db id (fun j => { j with retryCount := j.retryCount + 1 })
      else db := by
  by_cases hc : db.any (fun j => j.id == id) <;>
    simp [tryIncrementRetryCount, JobRepository.IncrementRetryCount,
      JobRepository.updateRow, hc]

theorem tryUpdateStatus_map_id (db : List OCRJob) (id : Nat) (st : JobStatus)
    (em : Option String) (now : Nat) :
    (tryUpdateStatus db id st em now).map (fun j => j.id) =
      db.map (fun j => j.id) := by
  rw [tryUpdateStatus_eq]
  split
  · exact JobRepository.applyRow_map_id (JobRepository.statusRowFn_id st em now)
  · rfl

theorem tryIncrement_map_id (db : List OCRJob) (id : Nat) :
    (tryIncrementRetryCount db id).map (fun j => j.id) =
      db.map (fun j => j.id) := by
  rw [tryIncrement_eq]
  split
  · exact JobRepository.applyRow_map_id (fun _ => rfl)
  · rfl

theorem mem_tryUpdateStatus {db : List OCRJob} {id : Nat} {st : JobStatus}
    {em : Option String} {now : Nat} {j' : OCRJob}
    (h : j' ∈ tryUpdateStatus db id st em now) :
    ∃ j ∈ db, j'.id = j.id ∧ j'.retryCount = j.retryCount ∧
      j'.maxRetries = j.maxRetries := by
  rw [tryUpdateStatus_eq] at h
  split at h
  · rcases JobRepository.mem_applyRow h with ⟨j, hj, rfl⟩
    refine ⟨j, hj, ?_⟩
    by_cases hc : j.id = id <;>
      simp [hc, JobRepository.statusRowFn_id, JobRepository.statusRowFn_retryCount,
        JobRepository.statusRowFn_maxRetries]
  · exact ⟨j', h, rfl, rfl, rfl⟩

theorem mem_tryIncrement {db : List OCRJob} {id : Nat} {j' : OCRJob}
    (h : j' ∈ tryIncrementRetryCount db id) :
    ∃ j ∈ db, j'.id = j.id ∧ j'.maxRetries = j.maxRetries ∧
      (j'.retryCount = j.retryCount ∨
        (j.id = id ∧ j'.retryCount = j.retryCount + 1)) := by
  rw [tryIncrement_eq] at h
  split at h
  · rcases JobRepository.mem_applyRow h with ⟨j, hj, rfl⟩
    refine ⟨j, hj, ?_⟩
    by_cases hc : j.id = id
    · refine ⟨?_, ?_, .inr ⟨hc, ?_⟩⟩ <;> simp [hc]
    · refine ⟨?_, ?_, .inl ?_⟩ <;> simp [hc]
  · exact ⟨j', h, rfl, rfl, .inl rfl⟩

end JobService

/-! ## Permutation and freshness lemmas for the goroutine token discipline -/

theorem set_getElem_self {α : Type _} (l : List α) (i : Nat) (h : i < l.length) :
    l.set i l[i] = l := by
  apply List.ext_getElem?
  intro n
  rw [List.getElem?_set]
  by_cases hin : i = n
  · subst hin
    simp [h, List.getElem?_eq_getElem]
  · simp [hin]

theorem nodup_insert_fresh {α : Type _} {sp m : List α} {a : α}
    (h : (sp ++ m).Nodup) (ha : a ∉ sp ++ m) : ((sp ++ [a]) ++ m).Nodup := by
  have p : ((sp ++ [a]) ++ m).Perm (a :: (sp ++ m)) := by
    rw [List.append_assoc, List.singleton_append]
    exact List.perm_middle
  exact p.nodup_iff.mpr (List.nodup_cons.mpr ⟨ha, h⟩)

theorem nodup_consume_spawn {α : Type _} [DecidableEq α] {sp m : List α} {b : α}
    (hb : b ∈ sp) (h : (sp ++ m).Nodup) :
    (sp.erase b ++ (m ++ [b])).Nodup := by
  have p1 : (sp ++ m).Perm (b :: (sp.erase b ++ m)) :=
    (List.perm_cons_erase hb).append_right m
  have p2 : (sp.erase b ++ (m ++ [b])).Perm (b :: (sp.erase b ++ m)) := by
    rw [← List.append_assoc]
    have := @List.perm_middle α b (sp.erase b ++ m) []
    simpa using this
  exact p2.nodup_iff.mpr (p1.nodup_iff.mp h)

theorem nodup_swap_middle {α : Type _} {sp t₁ t₂ : List α} {a : α}
    (h : (sp ++ (t₁ ++ a :: t₂)).Nodup) : ((sp ++ [a]) ++ (t₁ ++ t₂)).Nodup := by
  have p1 : (sp ++ (t₁ ++ a :: t₂)).Perm (a :: (sp ++ (t₁ ++ t₂))) := by
    have q1 : (t₁ ++ a :: t₂).Perm (a :: (t₁ ++ t₂)) := List.perm_middle
    exact (List.Perm.append_left sp q1).trans (@List.perm_middle _ a sp (t₁ ++ t₂))
  have p2 : ((sp ++ [a]) ++ (t₁ ++ t₂)).Perm (a :: (sp ++ (t₁ ++ t₂))) := by
    rw [List.append_assoc, List.singleton_append]
    exact List.perm_middle
  exact p2.nodup_iff.mpr (p1.nodup_iff.mp h)

theorem map_decomp {α β : Type _} (f : α → β) (l : List α) (i : Nat)
    (h : i < l.length) :
    l.map f = (l.take i).map f ++ f l[i] :: (l.drop (i + 1)).map f := by
  conv_lhs => rw [← List.take_append_drop i l]
  rw [List.map_append]
  congr 1
  rw [← List.getElem_cons_drop l i h, List.map_cons]

theorem eraseIdx_map {α β : Type _} (f : α → β) (l : List α) (i : Nat) :
    (l.eraseIdx i).map f = (l.take i).map f ++ (l.drop (i + 1)).map f := by
  rw [List.eraseIdx_eq_take_drop_succ, List.map_append]

/-! ## Preservation of the inductive invariant -/

theorem sysInv_of_jobs_triple {s : SysState} (h : SysInv s) {jobs' : List OCRJob}
    (hmap : jobs'.map (fun j => j.id) = s.stores.jobs.map (fun j => j.id))
    (hmem : ∀ j' ∈ jobs', ∃ j ∈ s.stores.jobs, j'.id = j.id ∧
      j'.retryCount = j.retryCount ∧ j'.maxRetries = j.maxRetries)
    (results' : List OCRResult) (docs' : List Document) :
    SysInv { stores := { jobs := jobs', results := results', documents := docs' },
             spawns := s.spawns, threads := s.threads, nextId := s.nextId } := by
  constructor
  · intro j' hj'
    rcases hmem j' hj' with ⟨j, hj, _, hrc, hmr⟩
    rw [hrc, hmr]
    exact h.retryBound j hj
  · intro j' hj'
    rcases hmem j' hj' with ⟨j, hj, hid, _, _⟩
    rw [hid]
    exact h.jobIdLt j hj
  · show (jobs'.map fun j => j.id).Nodup
    rw [hmap]
    exact h.jobIdsNodup
  · exact h.spawnLt
  · exact h.threadLt
  · exact h.tokensNodup
  · intro t ht j' hj' hid
    rcases hmem j' hj' with ⟨j, hj, hid', hrc, hmr⟩
    rw [hrc, hmr]
    exact h.snapAcc t ht j hj (by rw [← hid']; exact hid)

theorem sysInv_eraseThread {s : SysState} (h : SysInv s) (i : Nat) :
    SysInv { s with threads := s.threads.eraseIdx i } := by
  constructor
  · exact h.retryBound
  · exact h.jobIdLt
  · exact h.jobIdsNodup
  · exact h.spawnLt
  · intro t ht
    exact h.threadLt t ((List.eraseIdx_sublist s.threads i).subset ht)
  · have hsub : ((s.threads.eraseIdx i).map fun t => t.snap.id).Sublist
        (s.threads.map fun t => t.snap.id) :=
      (List.eraseIdx_sublist s.threads i).map _
    exact List.Nodup.sublist (hsub.append_left s.spawns) h.tokensNodup
  · intro t ht
    exact h.snapAcc t ((List.eraseIdx_sublist s.threads i).subset ht)

theorem sysInv_succNext {s : SysState} (h : SysInv s) :
    SysInv { s with nextId := s.nextId + 1 } := by
  constructor
  · exact h.retryBound
  · intro j hj
    exact (h.jobIdLt j hj).trans (Nat.lt_succ_self _)
  · exact h.jobIdsNodup
  · intro a ha
    exact (h.spawnLt a ha).trans (Nat.lt_succ_self _)
  · intro t ht
    exact (h.threadLt t ht).trans (Nat.lt_succ_self _)
  · exact h.tokensNodup
  · exact h.snapAcc

theorem sysInv_setThreadEngine {s : SysState} (h : SysInv s) {i : Nat}
    {snap : OCRJob} {doc : Document}
    (ht : s.threads[i]? = some (.fetched snap)) :
    SysInv { s with threads := s.threads.set i (.engine snap doc) } := by
  rcases List.getElem?_eq_some.1 ht with ⟨hlen, hival⟩
  have hmem : DispatchThread.fetched snap ∈ s.threads := by
    rw [← hival]
    exact List.getElem_mem hlen
  have hmapset : ((s.threads.set i (.engine snap doc)).map fun t => t.snap.id)
      = s.threads.map fun t => t.snap.id := by
    rw [List.map_set]
    have hlen2 : i < (s.threads.map fun t => t.snap.id).length := by simpa using hlen
    have hx : (s.threads.map fun t => t.snap.id)[i] = snap.id := by
      rw [List.getElem_map, hival]
      rfl
    rw [show (DispatchThread.engine snap doc).snap.id = snap.id from rfl, ← hx]
    exact set_getElem_self _ _ hlen2
  constructor
  · exact h.retryBound
  · exact h.jobIdLt
  · exact h.jobIdsNodup
  · exact h.spawnLt
  · intro t ht'
    rcases List.mem_or_eq_of_mem_set ht' with h' | rfl
    · exact h.threadLt t h'
    · exact h.threadLt (DispatchThread.fetched snap) hmem
  · have := h.tokensNodup
    rw [← hmapset] at this
    exact this
  · intro t ht' j hj hid
    rcases List.mem_or_eq_of_mem_set ht' with h' | rfl
    · exact h.snapAcc t h' j hj hid
    · exact h.snapAcc (DispatchThread.fetched snap) hmem j hj hid

/-! ## Case analyses of the service operations -/

namespace JobRepository

theorem mem_applyRow_triple {db : List OCRJob} {id : Nat} {f : OCRJob → OCRJob}
    {j' : OCRJob} (hid : ∀ j, (f j).id = j.id)
    (hrc : ∀ j, (f j).retryCount = j.retryCount)
    (hmr : ∀ j, (f j).maxRetries = j.maxRetries)
    (h : j' ∈ applyRow db id f) :
    ∃ j ∈ db, j'.id = j.id ∧ j'.retryCount = j.retryCount ∧
      j'.maxRetries = j.maxRetries := by
  rcases mem_applyRow h with ⟨j, hj, rfl⟩
  refine ⟨j, hj, ?_⟩
  by_cases hc : j.id = id <;> simp [hc, hid, hrc, hmr]

end JobRepository

theorem SubmitJob_cases (st : Stores) (req : JobSubmissionRequest)
    (userID freshId now : Nat) :
    (∃ e, JobService.SubmitJob st req userID freshId now = (st, .error e)) ∨
    JobService.SubmitJob st req userID freshId now =
      ({ st with jobs := st.jobs ++ [JobService.submittedJob req userID freshId now] },
       .ok (JobService.submittedJob req userID freshId now)) := by
  unfold JobService.SubmitJob
  cases hg : DocumentRepository.GetByID st.documents req.documentId with
  | error e => exact .inl ⟨"document not found: " ++ e, rfl⟩
  | ok document =>
    dsimp only
    by_cases h1 : document.userId ≠ userID
    · rw [if_pos h1]
      exact .inl ⟨"unauthorized: document does not belong to user", rfl⟩
    · rw [if_neg h1]
      exact .inr rfl

theorem CancelJob_stores (st : Stores) (jobID userID now : Nat) :
    (JobService.CancelJob st jobID userID now).1 = st ∨
    (JobService.CancelJob st jobID userID now).1 =
      { st with jobs := JobRepository.applyRow st.jobs jobID
                          (JobRepository.statusRowFn .cancelled none now) } := by
  unfold JobService.CancelJob
  cases hg : JobRepository.GetByID st.jobs jobID with
  | error e => exact .inl rfl
  | ok job =>
    dsimp only
    by_cases h1 : job.userId ≠ userID
    · rw [if_pos h1]; exact .inl rfl
    · rw [if_neg h1]
      by_cases h2 : job.status = .completed ∨ job.status = .failed ∨
          job.status = .cancelled
      · rw [if_pos h2]; exact .inl rfl
      · rw [if_neg h2]
        cases hu : JobRepository.UpdateStatus st.jobs jobID .cancelled none now with
        | error e => exact .inl rfl
        | ok jobs' =>
          right
          dsimp only
          rw [JobRepository.UpdateStatus_ok hu]

theorem DeleteJob_stores (st : Stores) (jobID userID : Nat) :
    (JobService.DeleteJob st jobID userID).1 = st ∨
    (JobService.DeleteJob st jobID userID).1 =
      { st with jobs := st.jobs.filter (fun j => j.id != jobID),
                results := st.results.filter (fun r => r.jobId != jobID) } := by
  unfold JobService.DeleteJob
  cases hg : JobRepository.GetByID st.jobs jobID with
  | error e => exact .inl rfl
  | ok job =>
    dsimp only
    by_cases h1 : job.userId ≠ userID
    · rw [if_pos h1]; exact .inl rfl
    · rw [if_neg h1]
      by_cases h2 : job.status = .pending ∨ job.status = .processing
      · rw [if_pos h2]; exact .inl rfl
      · rw [if_neg h2]
        cases hd : JobRepository.Delete st.jobs jobID with
        | error e => exact .inl rfl
        | ok jobs' =>
          right
          have := JobRepository.Delete_ok hd
          subst this
          rfl

theorem processJobClaim_cases (st : Stores) (snap : OCRJob) (now : Nat) :
    JobService.processJobClaim st snap now = (st, none) ∨
    (∃ em, JobService.processJobClaim st snap now =
      ({ st with jobs := JobService.tryUpdateStatus
                           (JobRepository.applyRow st.jobs snap.id
                             (JobRepository.statusRowFn .processing none now))
                           snap.id .failed (some em) now }, none)) ∨
    (∃ doc, JobService.processJobClaim st snap now =
      ({ st with jobs := JobRepository.applyRow st.jobs snap.id
                           (JobRepository.statusRowFn .processing none now) },
       some doc)) := by
  unfold JobService.processJobClaim
  by_cases h1 : snap.status ≠ .pending
  · rw [if_pos h1]; exact .inl rfl
  · rw [if_neg h1]
    cases hu : JobRepository.UpdateStatus st.jobs snap.id .processing none now with
    | error e => exact .inl rfl
    | ok jobs' =>
      cases hd : DocumentRepository.GetByID st.documents snap.documentId with
      | error e =>
        refine .inr (.inl ⟨"Failed to get document: " ++ e, ?_⟩)
        rw [JobRepository.UpdateStatus_ok hu]
      | ok doc =>
        refine .inr (.inr ⟨doc, ?_⟩)
        rw [JobRepository.UpdateStatus_ok hu]

theorem processJobFinish_cases (st : Stores) (snap : OCRJob)
    (outcome : EngineOutcome) (writeErr : Option String) (freshId now : Nat) :
    (∃ em, snap.retryCount < snap.maxRetries ∧
      JobService.processJobFinish st snap outcome writeErr freshId now =
        ({ st with jobs := JobService.tryUpdateStatus
                             (JobService.tryIncrementRetryCount
                               (JobService.tryUpdateStatus st.jobs snap.id .failed
                                 (some em) now)
                               snap.id)
                             snap.id .pending none now }, true)) ∨
    (∃ em, JobService.processJobFinish st snap outcome writeErr freshId now =
      ({ st with jobs := JobService.tryUpdateStatus st.jobs snap.id .failed
                           (some em) now },
       false)) ∨
    (∃ resp, JobService.processJobFinish st snap outcome writeErr freshId now =
      ({ st with
          results := JobService.processJobSaveResult st.results snap resp freshId now,
          jobs := JobService.tryUpdateStatus st.jobs snap.id .completed none now },
       false)) := by
  unfold JobService.processJobFinish
  cases outcome with
  | failure msg =>
    dsimp only
    by_cases hr : snap.retryCount < snap.maxRetries
    · refine .inl ⟨"OCR processing failed: " ++ msg, hr, ?_⟩
      rw [if_pos hr]
    · refine .inr (.inl ⟨"OCR processing failed: " ++ msg, ?_⟩)
      rw [if_neg hr]
  | success resp =>
    cases writeErr with
    | some e => exact .inr (.inl ⟨"Failed to save result: " ++ e, rfl⟩)
    | none => exact .inr (.inr ⟨resp, rfl⟩)

theorem sysInv_cancelStep {s : SysState} (h : SysInv s) (jobID userID now : Nat) :
    SysInv (s.cancelStep jobID userID now) := by
  unfold SysState.cancelStep
  rcases CancelJob_stores s.stores jobID userID now with h0 | h1
  · rw [h0]
    exact h
  · rw [h1]
    exact sysInv_of_jobs_triple h
      (JobRepository.applyRow_map_id (JobRepository.statusRowFn_id _ _ _))
      (fun j' hj' => JobRepository.mem_applyRow_triple
        (JobRepository.statusRowFn_id _ _ _)
        (JobRepository.statusRowFn_retryCount _ _ _)
        (JobRepository.statusRowFn_maxRetries _ _ _) hj') _ _

theorem sysInv_softDeleteDocStep {s : SysState} (h : SysInv s) (docID now : Nat) :
    SysInv (s.softDeleteDocStep docID now) := by
  unfold SysState.softDeleteDocStep
  exact sysInv_of_jobs_triple h rfl (fun j' hj' => ⟨j', hj', rfl, rfl, rfl⟩) _ _

theorem sysInv_deleteStep {s : SysState} (h : SysInv s) (jobID userID : Nat) :
    SysInv (s.deleteStep jobID userID) := by
  unfold SysState.deleteStep
  rcases DeleteJob_stores s.stores jobID userID with h0 | h1
  · rw [h0]
    exact h
  · rw [h1]
    have hsub : (s.stores.jobs.filter fun j => j.id != jobID).Sublist s.stores.jobs :=
      List.filter_sublist _
    constructor
    · intro j hj
      exact h.retryBound j (hsub.subset hj)
    · intro j hj
      exact h.jobIdLt j (hsub.subset hj)
    · exact List.Nodup.sublist (hsub.map _) h.jobIdsNodup
    · exact h.spawnLt
    · exact h.threadLt
    · exact h.tokensNodup
    · intro t ht j hj hid
      exact h.snapAcc t ht j (hsub.subset hj) hid

theorem sysInv_submitStep {s : SysState} (h : SysInv s)
    (req : JobSubmissionRequest) (userID now : Nat) :
    SysInv (s.submitStep req userID now) := by
  unfold SysState.submitStep
  rcases SubmitJob_cases s.stores req userID s.nextId now with ⟨e, he⟩ | hok
  · rw [he]
    exact h
  · rw [hok]
    dsimp only
    have hsjid : (JobService.submittedJob req userID s.nextId now).id = s.nextId := rfl
    constructor
    · intro j hj
      rcases List.mem_append.1 hj with hj | hj
      · exact h.retryBound j hj
      · rw [List.mem_singleton.1 hj]
        exact Nat.zero_le _
    · intro j hj
      rcases List.mem_append.1 hj with hj | hj
      · exact (h.jobIdLt j hj).trans (Nat.lt_succ_self _)
      · rw [List.mem_singleton.1 hj, hsjid]
        exact Nat.lt_succ_self _
    · rw [List.map_append]
      refine List.nodup_append.2 ⟨h.jobIdsNodup, List.nodup_singleton _, ?_⟩
      intro a ha hb
      rcases List.mem_map.1 ha with ⟨j, hj, rfl⟩
      rw [List.map_cons, List.map_nil, List.mem_singleton] at hb
      rw [hsjid] at hb
      exact absurd (h.jobIdLt j hj) (by rw [hb]; exact Nat.lt_irrefl _)
    · intro a ha
      rcases List.mem_append.1 ha with ha | ha
      · exact (h.spawnLt a ha).trans (Nat.lt_succ_self _)
      · rw [List.mem_singleton.1 ha, hsjid]
        exact Nat.lt_succ_self _
    · intro t ht
      exact (h.threadLt t ht).trans (Nat.lt_succ_self _)
    · refine nodup_insert_fresh h.tokensNodup ?_
      intro hmem
      rcases List.mem_append.1 hmem with hmem | hmem
      · rw [hsjid] at hmem
        exact Nat.lt_irrefl _ (h.spawnLt _ hmem)
      · rw [hsjid] at hmem
        rcases List.mem_map.1 hmem with ⟨t, ht, hteq⟩
        exact Nat.lt_irrefl _ (hteq ▸ h.threadLt t ht)
    · intro t ht j hj hid
      rcases List.mem_append.1 hj with hj | hj
      · exact h.snapAcc t ht j hj hid
      · rw [List.mem_singleton.1 hj] at hid
        rw [hsjid] at hid
        exact absurd (h.threadLt t ht) (by rw [← hid]; exact Nat.lt_irrefl _)

theorem sysInv_readStep {s : SysState} (h : SysInv s) {jobID : Nat}
    (hj : jobID ∈ s.spawns) : SysInv (s.readStep jobID) := by
  unfold SysState.readStep
  cases hl : JobRepository.lookup s.stores.jobs jobID with
  | none =>
    constructor
    · exact h.retryBound
    · exact h.jobIdLt
    · exact h.jobIdsNodup
    · intro a ha
      exact h.spawnLt a ((List.erase_sublist jobID s.spawns).subset ha)
    · exact h.threadLt
    · exact List.Nodup.sublist
        ((List.erase_sublist jobID s.spawns).append_right _) h.tokensNodup
    · exact h.snapAcc
  | some j =>
    have hjm := JobRepository.lookup_mem hl
    have hjid := JobRepository.lookup_id hl
    constructor
    · exact h.retryBound
    · exact h.jobIdLt
    · exact h.jobIdsNodup
    · intro a ha
      exact h.spawnLt a ((List.erase_sublist jobID s.spawns).subset ha)
    · intro t ht
      rcases List.mem_append.1 ht with ht | ht
      · exact h.threadLt t ht
      · rw [List.mem_singleton.1 ht]
        exact h.jobIdLt j hjm
    · rw [List.map_append]
      show (s.spawns.erase jobID ++
        ((s.threads.map fun t => t.snap.id) ++ [j.id])).Nodup
      rw [hjid]
      exact nodup_consume_spawn hj h.tokensNodup
    · intro t ht j' hj' hid
      rcases List.mem_append.1 ht with ht | ht
      · exact h.snapAcc t ht j' hj' hid
      · rw [List.mem_singleton.1 ht] at hid ⊢
        have : j' = j := by
          refine List.inj_on_of_nodup_map h.jobIdsNodup hj' hjm ?_
          exact hid
        rw [this]
        exact ⟨rfl, rfl⟩

theorem sysInv_claimStep {s : SysState} (h : SysInv s) (i now : Nat) :
    SysInv (s.claimStep i now) := by
  unfold SysState.claimStep
  cases ht : s.threads[i]? with
  | none => exact h
  | some t =>
    cases t with
    | engine snap doc => exact h
    | fetched snap =>
      dsimp only
      rcases processJobClaim_cases s.stores snap now with h0 | ⟨em, h1⟩ | ⟨doc, h2⟩
      · rw [h0]
        exact sysInv_eraseThread h i
      · rw [h1]
        exact sysInv_eraseThread (sysInv_of_jobs_triple h
          (by rw [JobService.tryUpdateStatus_map_id,
                JobRepository.applyRow_map_id (JobRepository.statusRowFn_id _ _ _)])
          (fun j' hj' => by
            rcases JobService.mem_tryUpdateStatus hj' with ⟨j1, hj1, e1, e2, e3⟩
            rcases JobRepository.mem_applyRow_triple
              (JobRepository.statusRowFn_id _ _ _)
              (JobRepository.statusRowFn_retryCount _ _ _)
              (JobRepository.statusRowFn_maxRetries _ _ _) hj1 with
                ⟨j0, hj0, g1, g2, g3⟩
            exact ⟨j0, hj0, e1.trans g1, e2.trans g2, e3.trans g3⟩) _ _) i
      · rw [h2]
        exact sysInv_setThreadEngine (sysInv_of_jobs_triple h
          (JobRepository.applyRow_map_id (JobRepository.statusRowFn_id _ _ _))
          (fun j' hj' => JobRepository.mem_applyRow_triple
            (JobRepository.statusRowFn_id _ _ _)
            (JobRepository.statusRowFn_retryCount _ _ _)
            (JobRepository.statusRowFn_maxRetries _ _ _) hj') _ _) ht

theorem sysInv_finishStep {s : SysState} (h : SysInv s) (i : Nat)
    (outcome : EngineOutcome) (writeErr : Option String) (now : Nat) :
    SysInv (s.finishStep i outcome writeErr now) := by
  unfold SysState.finishStep
  cases ht : s.threads[i]? with
  | none => exact h
  | some t =>
    cases t with
    | fetched snap => exact h
    | engine snap doc =>
      dsimp only
      rcases List.getElem?_eq_some.1 ht with ⟨hlen, hival⟩
      have htm : DispatchThread.engine snap doc ∈ s.threads := by
        rw [← hival]
        exact List.getElem_mem hlen
      have hdm : (s.threads.map fun t => t.snap.id) =
          ((s.threads.take i).map fun t => t.snap.id) ++ snap.id ::
            ((s.threads.drop (i + 1)).map fun t => t.snap.id) := by
        have hd := map_decomp (fun t => t.snap.id) s.threads i hlen
        rw [hival] at hd
        exact hd
      rcases processJobFinish_cases s.stores snap outcome writeErr s.nextId now with
        ⟨em, hr, hfin⟩ | ⟨em, hfin⟩ | ⟨resp, hfin⟩
      · rw [hfin]
        dsimp only
        have hchain : ∀ j' ∈ JobService.tryUpdateStatus
            (JobService.tryIncrementRetryCount
              (JobService.tryUpdateStatus s.stores.jobs snap.id .failed (some em) now)
              snap.id) snap.id .pending none now,
            ∃ j ∈ s.stores.jobs, j'.id = j.id ∧ j'.maxRetries = j.maxRetries ∧
              (j'.retryCount = j.retryCount ∨
                (j.id = snap.id ∧ j'.retryCount = j.retryCount + 1)) := by
          intro j' hj'
          rcases JobService.mem_tryUpdateStatus hj' with ⟨j2, hj2, e1, e2, e3⟩
          rcases JobService.mem_tryIncrement hj2 with ⟨j1, hj1, f1, f2, f3⟩
          rcases JobService.mem_tryUpdateStatus hj1 with ⟨j0, hj0, g1, g2, g3⟩
          refine ⟨j0, hj0, by rw [e1, f1, g1], by rw [e3, f2, g3], ?_⟩
          rcases f3 with f3 | ⟨fid, f3⟩
          · exact .inl (by rw [e2, f3, g2])
          · refine .inr ⟨by rw [← g1]; exact fid, by rw [e2, f3, g2]⟩
        have hmap3 : ((JobService.tryUpdateStatus
            (JobService.tryIncrementRetryCount
              (JobService.tryUpdateStatus s.stores.jobs snap.id .failed (some em) now)
              snap.id) snap.id .pending none now).map fun j => j.id) =
            s.stores.jobs.map fun j => j.id := by
          rw [JobService.tryUpdateStatus_map_id, JobService.tryIncrement_map_id,
            JobService.tryUpdateStatus_map_id]
        constructor
        · intro j' hj'
          rcases hchain j' hj' with ⟨j0, hj0, hid, hmr, hrc | ⟨hids, hrc⟩⟩
          · rw [hrc, hmr]
            exact h.retryBound j0 hj0
          · obtain ⟨ha1, ha2⟩ := h.snapAcc _ htm j0 hj0 hids
            simp only [DispatchThread.snap] at ha1 ha2
            omega
        · intro j' hj'
          rcases hchain j' hj' with ⟨j0, hj0, hid, _, _⟩
          rw [hid]
          exact (h.jobIdLt j0 hj0).trans (Nat.lt_succ_self _)
        · rw [hmap3]
          exact h.jobIdsNodup
        · intro a ha
          rcases List.mem_append.1 ha with ha | ha
          · exact (h.spawnLt a ha).trans (Nat.lt_succ_self _)
          · rw [List.mem_singleton.1 ha]
            exact (h.threadLt _ htm).trans (Nat.lt_succ_self _)
        · intro t' ht'
          exact (h.threadLt t'
            ((List.eraseIdx_sublist s.threads i).subset ht')).trans (Nat.lt_succ_self _)
        · rw [eraseIdx_map]
          have hnd := h.tokensNodup
          rw [hdm] at hnd
          exact nodup_swap_middle hnd
        · intro t' ht' j' hj' hid'
          have htm' : t' ∈ s.threads := (List.eraseIdx_sublist s.threads i).subset ht'
          have hne : t'.snap.id ≠ snap.id := by
            intro heq
            have hnd : (s.threads.map fun t => t.snap.id).Nodup :=
              (List.nodup_append.1 h.tokensNodup).2.1
            rw [hdm] at hnd
            have hnotin : snap.id ∉ ((s.threads.take i).map fun t => t.snap.id) ++
                ((s.threads.drop (i + 1)).map fun t => t.snap.id) := by
              have p := @List.perm_middle _ snap.id
                ((s.threads.take i).map fun t => t.snap.id)
                ((s.threads.drop (i + 1)).map fun t => t.snap.id)
              exact (List.nodup_cons.1 (p.nodup_iff.1 hnd)).1
            have hmem' : t'.snap.id ∈ (s.threads.eraseIdx i).map (fun t => t.snap.id) :=
              List.mem_map.2 ⟨t', ht', rfl⟩
            rw [eraseIdx_map, heq] at hmem'
            exact hnotin hmem'
          rcases hchain j' hj' with ⟨j0, hj0, hid0, hmr0, hrc0⟩
          have hacc := h.snapAcc t' htm' j0 hj0 (by rw [← hid0]; exact hid')
          rcases hrc0 with hrc0 | ⟨hids, _⟩
          · exact ⟨by rw [hrc0]; exact hacc.1, by rw [hmr0]; exact hacc.2⟩
          · exact absurd ((hid'.symm.trans (hid0.trans hids))) hne
      · rw [hfin]
        dsimp only
        exact sysInv_succNext (sysInv_eraseThread (sysInv_of_jobs_triple h
          (JobService.tryUpdateStatus_map_id _ _ _ _ _)
          (fun j' hj' => JobService.mem_tryUpdateStatus hj') _ _) i)
      · rw [hfin]
        dsimp only
        exact sysInv_succNext (sysInv_eraseThread (sysInv_of_jobs_triple h
          (JobService.tryUpdateStatus_map_id _ _ _ _ _)
          (fun j' hj' => JobService.mem_tryUpdateStatus hj') _ _) i)

theorem sysInv_step {s s' : SysState} (h : SysInv s) (hs : Step s s') :
    SysInv s' := by
  cases hs with
  | submit req userID now => exact sysInv_submitStep h req userID now
  | dispatchRead jobID hj => exact sysInv_readStep h hj
  | dispatchClaim i now => exact sysInv_claimStep h i now
  | dispatchFinish i outcome writeErr now =>
      exact sysInv_finishStep h i outcome writeErr now
  | cancel jobID userID now => exact sysInv_cancelStep h jobID userID now
  | deleteJob jobID userID => exact sysInv_deleteStep h jobID userID
  | softDeleteDocument docID now => exact sysInv_softDeleteDocStep h docID now

theorem reachable_sysInv {s : SysState} (h : Reachable s) : SysInv s := by
  induction h with
  | init docs => constructor <;> simp [initState]
  | step _ hstep ih => exact sysInv_step ih hstep

/-! ## The claims -/

/-- C1: cancelled is NOT sticky in the code. With job 1 cancelled while its
dispatch goroutine is suspended in the engine call (`exCancelled`), the finish
block of the dispatch overwrites the status: after it runs, the job is
completed. `processJob` never re-reads the status before its terminal write. -/
theorem C1_cancelled_overwritten_by_dispatch :
    (JobRepository.lookup exCancelled.jobs 1).map (fun j => j.status) =
      some .cancelled ∧
    (JobRepository.lookup exFinished.jobs 1).map (fun j => j.status) =
      some .completed := by decide

/-- C2: the invariant "completed_at is set iff the status is terminal" fails.
After one failed engine call with retries remaining, the job rests in status
pending with completed_at set (the interim failed write set it; the pending
write does not clear it). -/
theorem C2_pending_job_with_completedAt :
    (JobRepository.lookup exRetried.jobs 1).map
      (fun j => (j.status, j.completedAt.isSome)) = some (.pending, true) := by
  decide

/-- C3: a retried job does not go directly processing→pending: the finish
block first writes failed (even though retry_count < max_retries) and only
then increments the retry count and writes pending. The first conjunct shows
the intermediate failed state produced by the first update of the finish
block; the rest shows the final pending state with retry_count 1 and an error
message. -/
theorem C3_retry_passes_through_failed :
    (JobRepository.lookup (JobService.tryUpdateStatus exClaimed.jobs 1 .failed
        (some "OCR processing failed: boom") 1) 1).map (fun j => j.status) =
      some .failed ∧
    (JobRepository.lookup exRetried.jobs 1).map
      (fun j => (j.status, j.retryCount, j.errorMessage.isSome)) =
      some (.pending, 1, true) := by decide

/-- C4: in every reachable state of the interleaved system, every stored job
satisfies retry_count ≤ max_retries. The retry increment in `processJob` runs
only when the snapshot's retry_count is strictly below its max_retries, and
the inductive invariant shows the snapshot agrees with the live row on those
fields whenever the increment runs, so the bound holds at all times. -/
theorem C4_retry_count_le_max {s : SysState} (h : Reachable s) :
    ∀ j ∈ s.stores.jobs, j.retryCount ≤ j.maxRetries :=
  (reachable_sysInv h).retryBound

/-- Witness for C4: the concrete reachable state `exTraceState` (submit,
dispatch, failed engine call, retry scheduled) contains `exTraceJob`, and the
theorem yields its retry bound. -/
theorem C4_retry_count_le_max_witness :
    exTraceJob.retryCount ≤ exTraceJob.maxRetries := by
  have hreach : Reachable exTraceState :=
    Reachable.step (Reachable.step (Reachable.step (Reachable.step
      (Reachable.init [exDocument])
      (Step.submit exSubmitReq 7 0))
      (Step.dispatchRead 0 (by decide)))
      (Step.dispatchClaim 0 1))
      (Step.dispatchFinish 0 (.failure "boom") none 2)
  exact C4_retry_count_le_max hreach exTraceJob (by decide)

/-- C5: a Result row is created for a job whose status is cancelled. In the
store state between the two statements of the dispatch success path
(`exMidWrite`: the result insert has run, the completed update has not), job 1
is cancelled, a result row for it exists, and `GetJobResult` already returns
it to the owner. -/
theorem C5_result_visible_for_cancelled_job :
    (JobRepository.lookup exMidWrite.jobs 1).map (fun j => j.status) =
      some .cancelled ∧
    exMidWrite.results.any (fun r => r.jobId == 1) = true ∧
    (JobService.GetJobResult exMidWrite 1 7).toOption.isSome = true := by decide

/-- C6 counterexample: cancelling the pending job `exJob`, whose progress is
0, sets its progress percentage to 100 — the cancel write does not leave the
progress unchanged. -/
theorem C6_cancel_changes_progress :
    exJob.progressPercentage = 0 ∧
    (JobRepository.lookup (JobService.CancelJob exStores 1 7 5).1.jobs 1).map
      (fun j => j.progressPercentage) = some 100 := by decide

/-- C6 (amended): for a pending or processing job, a Cancel by the owner sets
the status to cancelled, sets completed_at, and sets the progress percentage
to 100; every other field of the job row and every other row is unchanged,
and the call reports success. -/
theorem C6_cancel_sets_progress_100 {s : Stores} {jobID userID now : Nat}
    {job : OCRJob} (hfind : JobRepository.lookup s.jobs jobID = some job)
    (howner : job.userId = userID)
    (hactive : job.status = .pending ∨ job.status = .processing) :
    JobService.CancelJob s jobID userID now =
      ({ s with jobs := s.jobs.map fun x =>
          if x.id == jobID then
            { x with status := .cancelled, completedAt := some now,
                     progressPercentage := 100 }
          else x }, .ok ()) := by
  have hany : s.jobs.any (fun j => j.id == jobID) = true :=
    List.any_eq_true.2 ⟨job, JobRepository.lookup_mem hfind,
      by simp [JobRepository.lookup_id hfind]⟩
  unfold JobService.CancelJob JobRepository.GetByID
  rw [hfind]
  dsimp only
  rw [if_neg (by simp [howner])]
  rw [if_neg (by rcases hactive with h | h <;> simp [h])]
  unfold JobRepository.UpdateStatus JobRepository.updateRow
  rw [if_pos hany]
  rfl

/-- Witness for C6 (amended) at the concrete store `exStores`. -/
theorem C6_cancel_sets_progress_100_witness :
    JobService.CancelJob exStores 1 7 5 =
      ({ exStores with jobs := exStores.jobs.map fun x =>
          if x.id == 1 then
            { x with status := .cancelled, completedAt := some 5,
                     progressPercentage := 100 }
          else x }, .ok ()) :=
  @C6_cancel_sets_progress_100 exStores 1 7 5 exJob (by decide) rfl (.inl rfl)

/-- C7 counterexample: the first dispatch of job 1 set started_at to 1; after
one retry the re-dispatch at time 20 overwrites it to 20 — started_at is not
immutable after the first pending→processing transition. -/
theorem C7_startedAt_overwritten_on_redispatch :
    (JobRepository.lookup exRetried.jobs 1).map (fun j => j.startedAt) =
      some (some 1) ∧
    (JobRepository.lookup exSecondDispatch.jobs 1).map (fun j => j.startedAt) =
      some (some 20) := by decide

theorem statusRowFn_startedAt {st : JobStatus} (hne : st ≠ .processing)
    (em : Option String) (now : Nat) (j : OCRJob) :
    (JobRepository.statusRowFn st em now j).startedAt = j.startedAt := by
  unfold JobRepository.statusRowFn
  cases st <;> cases em <;> first | rfl | exact absurd rfl hne

theorem applyRow_map_proj {β : Type _} {db : List OCRJob} {id : Nat}
    {f : OCRJob → OCRJob} (g : OCRJob → β) (hf : ∀ j, g (f j) = g j) :
    (JobRepository.applyRow db id f).map g = db.map g := by
  unfold JobRepository.applyRow
  rw [List.map_map]
  refine List.map_congr_left ?_
  intro j _
  by_cases h : j.id = id <;> simp [h, hf]

/-- C7 (amended): started_at is stamped with the current time on EVERY
transition to processing — including the re-dispatch after a retry, which
overwrites the previous value — and is left untouched by every transition to
any other status. -/
theorem C7_startedAt_set_on_every_processing_transition :
    (∀ db jobID em now db',
      JobRepository.UpdateStatus db jobID .processing em now = .ok db' →
      ∀ j ∈ db', j.id = jobID → j.startedAt = some now) ∧
    (∀ db jobID st em now db', st ≠ .processing →
      JobRepository.UpdateStatus db jobID st em now = .ok db' →
      db'.map (fun j => j.startedAt) = db.map (fun j => j.startedAt)) := by
  constructor
  · intro db jobID em now db' hok j hj hid
    rw [JobRepository.UpdateStatus_ok hok] at hj
    rcases JobRepository.mem_applyRow hj with ⟨j0, hj0, rfl⟩
    by_cases hc : j0.id = jobID
    · simp [hc, JobRepository.statusRowFn]
    · simp [hc] at hid
  · intro db jobID st em now db' hne hok
    rw [JobRepository.UpdateStatus_ok hok]
    exact applyRow_map_proj _ (statusRowFn_startedAt hne em now)

/-- Witness for C7 (amended): a processing transition at time 9 stamps
started_at = 9 on the matching row, and a later pending write leaves the
started_at column untouched. -/
theorem C7_startedAt_witness :
    exProcessedJob.startedAt = some 9 ∧
    ([{ exProcessedJob with status := JobStatus.pending }].map
      (fun j => j.startedAt)) = [exProcessedJob].map (fun j => j.startedAt) := by
  constructor
  · exact C7_startedAt_set_on_every_processing_transition.1 [exJob] 1 none 9
      [exProcessedJob] rfl exProcessedJob (by decide) rfl
  · exact C7_startedAt_set_on_every_processing_transition.2 [exProcessedJob] 1
      .pending none 11 [{ exProcessedJob with status := JobStatus.pending }]
      (by decide) rfl

/-- C8: GetPendingJobs returns only pending jobs from the store, in an order
where every earlier job either has strictly higher priority or equal priority
and no later creation time; on the spec's example A(pri 5, t=1), B(pri 9,
t=2), C(pri 5, t=0) the returned order is [B, C, A]. -/
theorem C8_getPendingJobs_ordering :
    (∀ db limit, ∀ j ∈ JobRepository.GetPendingJobs db limit,
      j.status = .pending ∧ j ∈ db) ∧
    (∀ db limit, List.Pairwise JobRepository.pendingOrder
      (JobRepository.GetPendingJobs db limit)) ∧
    ((JobRepository.GetPendingJobs [exJobA, exJobB, exJobC] 10).map fun j => j.id) =
      [2, 3, 1] := by
  refine ⟨?_, ?_, by decide⟩
  · intro db limit j hj
    unfold JobRepository.GetPendingJobs at hj
    have h1 := List.mem_of_mem_take hj
    have h2 := (List.mem_insertionSort JobRepository.pendingOrder).1 h1
    have h3 := List.mem_filter.1 h2
    refine ⟨?_, h3.1⟩
    simpa using h3.2
  · intro db limit
    unfold JobRepository.GetPendingJobs
    exact List.Pairwise.sublist (List.take_sublist _ _)
      (List.sorted_insertionSort JobRepository.pendingOrder _)

/-- Witness for C8 at the concrete three-job store. -/
theorem C8_getPendingJobs_ordering_witness :
    exJobB.status = .pending ∧ exJobB ∈ [exJobA, exJobB, exJobC] :=
  C8_getPendingJobs_ordering.1 [exJobA, exJobB, exJobC] 10 exJobB (by decide)

/-- C9 counterexample: for CancelJob the API response is NOT identical for
the two failures: cancelling another user's existing job and cancelling a
missing job both return 400/JOB_002, but the passed-through messages differ
("unauthorized: job does not belong to user" vs "job not found"), so a caller
can distinguish them. -/
theorem C9_cancel_response_distinguishes_owner_from_missing :
    JobHandler.CancelJob exStores 1 9 0 ≠ JobHandler.CancelJob exStores 99 9 0 := by
  decide

/-- C9 (amended): GetJob and GetJobResult surface every service failure —
wrong owner or missing job alike — as one fixed 404 response, so those two
cases are indistinguishable there; CancelJob and DeleteJob return 400 with a
fixed error code but pass the service error message through, which names
"unauthorized" for another user's job and "job not found" for a missing one. -/
theorem C9_response_mapping :
    (∀ s jobID userID e, JobService.GetJob s jobID userID = .error e →
      JobHandler.GetJob s jobID userID =
        ⟨404, "RES_003", "Job not found"⟩) ∧
    (∀ s jobID userID e, JobService.GetJobResult s jobID userID = .error e →
      JobHandler.GetJobResult s jobID userID =
        ⟨404, "RES_004", "Result not found"⟩) ∧
    (∀ s jobID userID now job, JobRepository.lookup s.jobs jobID = some job →
      job.userId ≠ userID →
      JobHandler.CancelJob s jobID userID now =
        ⟨400, "JOB_002", "unauthorized: job does not belong to user"⟩) ∧
    (∀ s jobID userID now, JobRepository.lookup s.jobs jobID = none →
      JobHandler.CancelJob s jobID userID now =
        ⟨400, "JOB_002", "job not found"⟩) ∧
    (∀ s jobID userID job, JobRepository.lookup s.jobs jobID = some job →
      job.userId ≠ userID →
      JobHandler.DeleteJob s jobID userID =
        ⟨400, "JOB_003", "unauthorized: job does not belong to user"⟩) ∧
    (∀ s jobID userID, JobRepository.lookup s.jobs jobID = none →
      JobHandler.DeleteJob s jobID userID =
        ⟨400, "JOB_003", "job not found"⟩) := by
  refine ⟨?_, ?_, ?_, ?_, ?_, ?_⟩
  · intro s jobID userID e h
    unfold JobHandler.GetJob
    rw [h]
  · intro s jobID userID e h
    unfold JobHandler.GetJobResult
    rw [h]
  · intro s jobID userID now job hl hno
    unfold JobHandler.CancelJob JobService.CancelJob JobRepository.GetByID
    rw [hl]
    dsimp only
    rw [if_pos hno]
  · intro s jobID userID now hl
    unfold JobHandler.CancelJob JobService.CancelJob JobRepository.GetByID
    rw [hl]
  · intro s jobID userID job hl hno
    unfold JobHandler.DeleteJob JobService.DeleteJob JobRepository.GetByID
    rw [hl]
    dsimp only
    rw [if_pos hno]
  · intro s jobID userID hl
    unfold JobHandler.DeleteJob JobService.DeleteJob JobRepository.GetByID
    rw [hl]

/-- Witness for C9 (amended) at concrete stores: both failure kinds for all
four endpoints. -/
theorem C9_response_mapping_witness :
    JobHandler.GetJob exStores 99 7 = ⟨404, "RES_003", "Job not found"⟩ ∧
    JobHandler.GetJobResult exStores 99 7 =
      ⟨404, "RES_004", "Result not found"⟩ ∧
    JobHandler.CancelJob exStores 1 9 0 =
      ⟨400, "JOB_002", "unauthorized: job does not belong to user"⟩ ∧
    JobHandler.CancelJob exStores 99 9 0 =
      ⟨400, "JOB_002", "job not found"⟩ ∧
    JobHandler.DeleteJob exStores 1 9 =
      ⟨400, "JOB_003", "unauthorized: job does not belong to user"⟩ ∧
    JobHandler.DeleteJob exStores 99 9 = ⟨400, "JOB_003", "job not found"⟩ :=
  ⟨C9_response_mapping.1 exStores 99 7 "job not found" rfl,
   C9_response_mapping.2.1 exStores 99 7 "job not found" rfl,
   C9_response_mapping.2.2.1 exStores 1 9 0 exJob (by decide) (by decide),
   C9_response_mapping.2.2.2.1 exStores 99 9 0 (by decide),
   C9_response_mapping.2.2.2.2.1 exStores 1 9 exJob (by decide) (by decide),
   C9_response_mapping.2.2.2.2.2 exStores 99 9 (by decide)⟩

/-- C10: the pagination metadata returned by ListJobs is internally
consistent with the clamped inputs: TotalPages is the ceiling of
Total / PerPage (stated by its Galois characterisation: TotalPages ≤ n iff
Total ≤ n·PerPage), HasNext holds iff Page < TotalPages, and HasPrev holds
iff Page > 1. -/
theorem C10_pagination_consistent (s : Stores) (userID : Nat)
    (page perPage : Int) :
    (∀ n : Nat, ((JobService.ListJobs s userID page perPage).2.totalPages ≤ n ↔
      (JobService.ListJobs s userID page perPage).2.total ≤
        n * (JobService.ListJobs s userID page perPage).2.perPage)) ∧
    ((JobService.ListJobs s userID page perPage).2.hasNext = true ↔
      (JobService.ListJobs s userID page perPage).2.page <
        (JobService.ListJobs s userID page perPage).2.totalPages) ∧
    ((JobService.ListJobs s userID page perPage).2.hasPrev = true ↔
      1 < (JobService.ListJobs s userID page perPage).2.page) := by
  have hpp : 1 ≤ (if perPage < 1 || perPage > 100 then 20 else perPage.toNat) := by
    split
    · omega
    · rename_i hcond
      simp only [Bool.or_eq_true, decide_eq_true_eq, not_or] at hcond
      omega
  unfold JobService.ListJobs
  dsimp only
  refine ⟨?_, ?_, ?_⟩
  · intro n
    rw [Nat.div_le_iff_le_mul_add_pred hpp, Nat.mul_comm n _]
    generalize (if perPage < 1 || perPage > 100 then 20 else perPage.toNat) *
      n = t
    omega
  · simp only [decide_eq_true_eq]
  · simp only [decide_eq_true_eq]

end Visekai
